import Mathlib

/-!
Verification of the query-builder core of `beanie` (files
`beanie/odm/queries/find.py` and `beanie/odm/interfaces/session.py`).

`FindQuery` is a pydantic (v1) model with `validate_assignment = True`.
Builder methods derive a new query via `_copy_update`: pydantic `copy()`
(no validation) followed by `setattr` of each keyword argument, which
re-runs that field's validators.  We embed:

* the query state as a Lean structure (model types, predicates, raw
  records and sessions are opaque and represented by `Nat` identifiers);
* the pydantic validator pipeline for each field, as executable
  functions returning `Except PyErr`;
* every builder method as a pure function from the receiver state (and
  arguments) to `Except PyErr FindQuery`;
* the execution paths (`__await__`, `count`) against an abstract
  collection, returning alongside the result the trace of outbound
  calls made to the collection;
* a heap model (lists of `FindQuery` cells addressed by index) in which
  `_copy_update` is an allocation of a copy followed by in-place
  `setattr`s on the fresh cell, to state object-level immutability.
-/

set_option autoImplicit false

namespace Beanie

/-- `SortDirection` enum from `beanie/odm/enums.py` (ASCENDING = 1,
DESCENDING = -1). -/
inductive SortDirection where
  | ascending
  | descending
  deriving DecidableEq, Repr

/-- A Python value that may be assigned as one item of a sort
specification: `None`, a string, a `(field, direction)` tuple, a list
(allowed only as the sole argument of `sort`), or a value of any other
type (tagged by a `Nat` so that distinct foreign values exist). -/
inductive SortArg where
  | pyNone
  | pyStr (s : String)
  | pyPair (field : String) (dir : SortDirection)
  | pyList (l : List SortArg)
  | pyOther (tag : Nat)

/-- Python exceptions raised by the embedded code. -/
inductive PyErr where
  | typeError (msg : String)
  | valueError (msg : String)
  deriving DecidableEq, Repr

/-- The state of a `FindQuery` (fields of the pydantic model, including
the inherited `SessionMethods.session`).  `document_model` and
`projection_model` are opaque model-type identifiers; `find_expressions`
holds opaque predicate identifiers; `cursor` and `session` are opaque
handles. -/
structure FindQuery where
  document_model : Nat
  find_expressions : List Nat
  projection_model : Nat
  sort_expressions : List (String × SortDirection)
  skip_number : Nat
  limit_number : Nat
  is_single : Bool
  cursor : Option Nat
  session : Option Nat
  deriving DecidableEq, Repr

/-- Python `s.startswith(c)` for a single-character needle. -/
def startswith1 (s : String) (c : Char) : Bool :=
  match s.data with
  | [] => false
  | c0 :: _ => c0 == c

/-- Python `s[1:]`. -/
def drop1 (s : String) : String :=
  String.mk (s.data.drop 1)

/-- The `validate_sort_items` validator (`each_item = True, pre = True`
on `sort_expressions`): `None` is passed through (to be dropped by the
list-level validator), a tuple is passed through unchanged, a string is
parsed (`"+f"`/`"f"` ascending, `"-f"` descending), anything else raises
`TypeError("Wrong sort type")`. -/
def validate_sort_items (val : SortArg) : Except PyErr SortArg :=
  match val with
  | .pyNone => .ok .pyNone
  | .pyPair f d => .ok (.pyPair f d)
  | .pyStr s =>
      if startswith1 s '+' then .ok (.pyPair (drop1 s) .ascending)
      else if startswith1 s '-' then .ok (.pyPair (drop1 s) .descending)
      else .ok (.pyPair s .ascending)
  | _ => .error (.typeError "Wrong sort type")

/-- `item is not None`. -/
def is_not_none : SortArg → Bool
  | .pyNone => false
  | _ => true

/-- The `validate_sort_no_none` validator (`pre = True`, whole field):
drops `None` items from the assigned list. -/
def validate_sort_no_none (val : List SortArg) : List SortArg :=
  val.filter is_not_none

/-- Pydantic coercion of a validated item to `Tuple[str, SortDirection]`
(runs after `validate_sort_items` on each item; anything that is still
not a pair at that point is a validation error). -/
def coerce_sort_tuple : SortArg → Except PyErr (String × SortDirection)
  | .pyPair f d => .ok (f, d)
  | _ => .error (.typeError "value is not a valid tuple")

/-- Item-by-item validation of a sort list: each item goes through
`validate_sort_items` and then the tuple coercion, in list order. -/
def validate_items_list : List SortArg →
    Except PyErr (List (String × SortDirection))
  | [] => .ok []
  | item :: rest => do
      let v ← validate_sort_items item
      let p ← coerce_sort_tuple v
      let ps ← validate_items_list rest
      .ok (p :: ps)

/-- The full pydantic-v1 validation pipeline run whenever
`sort_expressions` is assigned.  Pydantic v1 applies whole-field
`pre = True` validators (`validate_sort_no_none`) before item-by-item
validation; `each_item = True` validators (`validate_sort_items`) are
moved onto the item sub-field (`ModelField._create_sub_type`) and hence
run per item afterwards, followed by the tuple coercion. -/
def validate_sort_field (val : List SortArg) :
    Except PyErr (List (String × SortDirection)) :=
  validate_items_list (validate_sort_no_none val)

/-- The `default_projection_model` validator (`pre = True, always = True`):
an assigned `None` is replaced by `values['document_model']`. -/
def default_projection_model (val : Option Nat) (document_model : Nat) : Nat :=
  val.getD document_model

/-- One keyword argument of `_copy_update`: the field being assigned and
the (Python-typed) value assigned to it. -/
inductive FieldUpdate where
  | find_expressions (v : List Nat)
  | projection_model (v : Option Nat)
  | sort_expressions (v : List SortArg)
  | skip_number (v : Nat)
  | limit_number (v : Nat)
  | is_single (v : Bool)
  | session (v : Option Nat)

/-- `setattr(res, key, value)` under `validate_assignment = True`: the
assigned field's validators run; only `sort_expressions` can fail
(`skip_number`/`limit_number` are `conint(ge=0)`, embedded as `Nat`). -/
def setattr_validated (q : FindQuery) (u : FieldUpdate) : Except PyErr FindQuery :=
  match u with
  | .find_expressions v => .ok { q with find_expressions := v }
  | .projection_model v =>
      .ok { q with projection_model := default_projection_model v q.document_model }
  | .sort_expressions v => do
      let s ← validate_sort_field v
      .ok { q with sort_expressions := s }
  | .skip_number v => .ok { q with skip_number := v }
  | .limit_number v => .ok { q with limit_number := v }
  | .is_single v => .ok { q with is_single := v }
  | .session v => .ok { q with session := v }

/-- `FindQuery._copy_update`: copy `self`, then `setattr` each keyword
argument on the copy (in keyword order), re-validating each assigned
field.  The value of the resulting object is the fold of the validated
assignments over the copied value. -/
def _copy_update (q : FindQuery) (kwargs : List FieldUpdate) :
    Except PyErr FindQuery :=
  kwargs.foldlM setattr_validated q

/-- `FindQuery.limit`. -/
def FindQuery.limit (q : FindQuery) (limit_number : Nat) : Except PyErr FindQuery :=
  _copy_update q [.limit_number limit_number]

/-- `FindQuery.skip`. -/
def FindQuery.skip (q : FindQuery) (skip_number : Nat) : Except PyErr FindQuery :=
  _copy_update q [.skip_number skip_number]

/-- `FindQuery.project`. -/
def FindQuery.project (q : FindQuery) (projection_model : Option Nat) :
    Except PyErr FindQuery :=
  _copy_update q [.projection_model projection_model]

/-- `FindQuery.one`: sets `is_single` to the flag and `limit_number` to 1. -/
def FindQuery.one (q : FindQuery) (is_single : Bool) : Except PyErr FindQuery :=
  _copy_update q [.is_single is_single, .limit_number 1]

/-- `SessionMethods.set_session` (`beanie/odm/interfaces/session.py`):
`self.copy(update={'session': session})` — a pydantic copy-with-update,
which does not run validators and never fails. -/
def FindQuery.set_session (q : FindQuery) (session : Option Nat) : FindQuery :=
  { q with session := session }

/-- `FindQuery.sort`: zero arguments raise
`ValueError("'sort()' requires arguments.")`; a sole list argument is
splatted recursively; otherwise the new arguments are prepended to the
existing (already normalized) `sort_expressions` and the whole list is
assigned, triggering validation. -/
def FindQuery.sort (q : FindQuery) (args : List SortArg) : Except PyErr FindQuery :=
  match args with
  | [] => .error (.valueError "'sort()' requires arguments.")
  | [.pyList l] => FindQuery.sort q l
  | _ =>
      _copy_update q
        [.sort_expressions
          (args ++ q.sort_expressions.map fun p => SortArg.pyPair p.1 p.2)]

/-- The keyword arguments of `FindQuery.find` (each `none` when the
caller omitted it). -/
structure FindKwargs where
  skip : Option Nat
  limit : Option Nat
  sort : Option SortArg
  one : Option Bool
  projection_model : Option Nat
  session : Option Nat

/-- `find` with no keyword arguments. -/
def noKwargs : FindKwargs :=
  ⟨none, none, none, none, none, none⟩

/-- `FindQuery.find`: append the positional predicates to
`find_expressions`, then conditionally apply `skip`, `limit`, `sort`,
`one`, `project`, `set_session` — each only when its keyword argument is
not `None`. -/
def FindQuery.find (q : FindQuery) (args : List Nat) (kw : FindKwargs) :
    Except PyErr FindQuery := do
  let res ← _copy_update q [.find_expressions (q.find_expressions ++ args)]
  let res ← match kw.skip with
    | some n => res.skip n
    | none => pure res
  let res ← match kw.limit with
    | some n => res.limit n
    | none => pure res
  let res ← match kw.sort with
    | some s => res.sort [s]
    | none => pure res
  let res ← match kw.one with
    | some b => res.one b
    | none => pure res
  let res ← match kw.projection_model with
    | some m => res.project (some m)
    | none => pure res
  let res := match kw.session with
    | some s => res.set_session (some s)
    | none => res
  pure res

/-- `find_many = find` (alias). -/
def FindQuery.find_many : FindQuery → List Nat → FindKwargs → Except PyErr FindQuery :=
  FindQuery.find

/-- `FindQuery.find_one`: `self.find(*args, **kwargs).one()` (the `one`
call uses its default flag `True`). -/
def FindQuery.find_one (q : FindQuery) (args : List Nat) (kw : FindKwargs) :
    Except PyErr FindQuery := do
  let r ← q.find args kw
  r.one true

/-- A filter query value: either the empty mapping `{}` ("match all") or
`And(*find_expressions)` built by the external logical-AND operator,
which keeps its arguments in the given order. -/
inductive FilterQuery where
  | emptyF
  | andF (preds : List Nat)
  deriving DecidableEq, Repr

/-- `FindQuery.get_filter_query`: `And(*self.find_expressions)` when the
list is non-empty (truthy), else `{}`. -/
def FindQuery.get_filter_query (q : FindQuery) : FilterQuery :=
  match q.find_expressions with
  | [] => .emptyF
  | _ => .andF q.find_expressions

/-- `FindQuery.get_projection_model`. -/
def FindQuery.get_projection_model (q : FindQuery) : Nat :=
  q.projection_model

/-- Modelled from the spec: the external `get_projection` helper
(`beanie/odm/utils/projection.py`, not part of this snapshot) derives
the field-selection specification from the projection model's declared
fields; we keep it opaque as the model identifier itself. -/
def get_projection (projection_model : Nat) : Nat :=
  projection_model

/-- The parameter set assembled by `FindQuery._find_query_params`. -/
structure FindParams where
  filter : FilterQuery
  projection : Nat
  session : Option Nat
  limit : Nat
  skip : Nat
  sort : List (String × SortDirection)
  deriving DecidableEq, Repr

/-- `FindQuery._find_query_params`: the dict passed to the motor
collection; in particular
`limit = self.limit_number if not self.is_single else 1`. -/
def FindQuery._find_query_params (q : FindQuery) : FindParams :=
  { filter := q.get_filter_query
    projection := get_projection q.projection_model
    session := q.session
    limit := if !q.is_single then q.limit_number else 1
    skip := q.skip_number
    sort := q.sort_expressions }

/-- `projection_model.parse_obj(document)`: external pydantic parsing,
embedded as the (model, raw record) pair — injective in both, so the
result determines which model the record was parsed into. -/
def parse_obj (model : Nat) (document : Nat) : Nat × Nat :=
  (model, document)

/-- The abstract motor collection: what `find_one` returns for given
parameters, which raw documents a `find` cursor yields, and what
`count_documents` answers for a filter. -/
structure MotorCollection where
  find_one_result : FindParams → Option Nat
  find_docs : FindParams → List Nat
  count_documents_result : FilterQuery → Nat

/-- One outbound call to the motor collection. -/
inductive MotorCall where
  | find_one_call (params : FindParams)
  | find_call (params : FindParams)
  | count_documents_call («filter» : FilterQuery)
  deriving DecidableEq, Repr

/-- The result of awaiting a `FindQuery`. -/
inductive AwaitResult where
  | singleR (doc : Option (Nat × Nat))
  | manyR (docs : List (Nat × Nat))
  deriving DecidableEq, Repr

/-- `FindQuery.__await__`: assemble the parameters once; when
`is_single`, issue one `find_one` call — `None` stays `None`, otherwise
the raw document is parsed into `projection_model`.  Otherwise delegate
to `to_list()` (modelled from the spec: the cursor path of
`BaseCursorQuery`, not in this snapshot, drains one `find` call into an
ordered list of parsed documents).  Returns the result together with the
trace of outbound calls. -/
def FindQuery.await_query (q : FindQuery) (col : MotorCollection) :
    AwaitResult × List MotorCall :=
  let params := q._find_query_params
  if q.is_single then
    match col.find_one_result params with
    | none => (.singleR none, [.find_one_call params])
    | some document =>
        (.singleR (some (parse_obj q.projection_model document)),
         [.find_one_call params])
  else
    (.manyR ((col.find_docs params).map (parse_obj q.projection_model)),
     [.find_call params])

/-- `FindQuery.count`: one `count_documents` call carrying only
`self.get_filter_query()`.  Returns the count with the call trace. -/
def FindQuery.count (q : FindQuery) (col : MotorCollection) :
    Nat × List MotorCall :=
  (col.count_documents_result q.get_filter_query,
   [.count_documents_call q.get_filter_query])

/-! ## Heap model

To state object-level immutability ("no field of the receiver is
altered") we also run the builder methods over an explicit heap of
`FindQuery` objects: a list of cells addressed by index.  `copy()`
allocates a fresh cell holding the receiver's current value; `setattr`
mutates a cell in place.  Every builder method takes the heap and the
receiver's address and returns the new heap with the address of the
object it returns. -/

/-- An arbitrary inhabitant used only for out-of-range heap reads. -/
def default_query : FindQuery :=
  { document_model := 0
    find_expressions := []
    projection_model := 0
    sort_expressions := []
    skip_number := 0
    limit_number := 0
    is_single := false
    cursor := none
    session := none }

/-- A heap of query objects; addresses are list indices. -/
abbrev Heap := List FindQuery

/-- Dereference an address. -/
def heap_get (h : Heap) (r : Nat) : FindQuery :=
  h.getD r default_query

/-- Pydantic `self.copy()`: allocate a fresh cell holding the
receiver's value; returns the new heap and the fresh address. -/
def heap_copy (h : Heap) (r : Nat) : Heap × Nat :=
  (h ++ [heap_get h r], h.length)

/-- In-place `setattr(·, key, value)` on the cell at `r`, running the
assigned field's validators. -/
def heap_setattr (h : Heap) (r : Nat) (u : FieldUpdate) : Except PyErr Heap :=
  match setattr_validated (heap_get h r) u with
  | .ok q => .ok (h.set r q)
  | .error e => .error e

/-- `FindQuery._copy_update` on the heap: copy `self`, then `setattr`
each keyword argument on the fresh cell. -/
def heap_copy_update (h : Heap) (r : Nat) (kwargs : List FieldUpdate) :
    Except PyErr (Heap × Nat) := do
  let (h1, res) := heap_copy h r
  let h2 ← kwargs.foldlM (fun hh u => heap_setattr hh res u) h1
  pure (h2, res)

/-- `limit` on the heap. -/
def heap_limit (h : Heap) (r : Nat) (limit_number : Nat) :
    Except PyErr (Heap × Nat) :=
  heap_copy_update h r [.limit_number limit_number]

/-- `skip` on the heap. -/
def heap_skip (h : Heap) (r : Nat) (skip_number : Nat) :
    Except PyErr (Heap × Nat) :=
  heap_copy_update h r [.skip_number skip_number]

/-- `project` on the heap. -/
def heap_project (h : Heap) (r : Nat) (projection_model : Option Nat) :
    Except PyErr (Heap × Nat) :=
  heap_copy_update h r [.projection_model projection_model]

/-- `one` on the heap. -/
def heap_one (h : Heap) (r : Nat) (is_single : Bool) :
    Except PyErr (Heap × Nat) :=
  heap_copy_update h r [.is_single is_single, .limit_number 1]

/-- `set_session` on the heap: `self.copy(update={'session': session})`
allocates the updated copy without touching the receiver. -/
def heap_set_session (h : Heap) (r : Nat) (session : Option Nat) :
    Heap × Nat :=
  (h ++ [{ heap_get h r with session := session }], h.length)

/-- `sort` on the heap. -/
def heap_sort (h : Heap) (r : Nat) (args : List SortArg) :
    Except PyErr (Heap × Nat) :=
  match args with
  | [] => .error (.valueError "'sort()' requires arguments.")
  | [.pyList l] => heap_sort h r l
  | _ =>
      heap_copy_update h r
        [.sort_expressions
          (args ++ (heap_get h r).sort_expressions.map
            fun p => SortArg.pyPair p.1 p.2)]

/-- The conditional `res = f(arg) if arg is not None else res` pattern
of `find`, on the heap. -/
def heap_opt_step {α : Type} (o : Option α)
    (f : α → Except PyErr (Heap × Nat)) (p : Heap × Nat) :
    Except PyErr (Heap × Nat) :=
  match o with
  | some a => f a
  | none => pure p

/-- `find` on the heap: each chained step runs on the object produced by
the previous step. -/
def heap_find (h : Heap) (r : Nat) (args : List Nat) (kw : FindKwargs) :
    Except PyErr (Heap × Nat) := do
  let p0 ← heap_copy_update h r
    [.find_expressions ((heap_get h r).find_expressions ++ args)]
  let p1 ← heap_opt_step kw.skip (fun n => heap_skip p0.1 p0.2 n) p0
  let p2 ← heap_opt_step kw.limit (fun n => heap_limit p1.1 p1.2 n) p1
  let p3 ← heap_opt_step kw.sort (fun s => heap_sort p2.1 p2.2 [s]) p2
  let p4 ← heap_opt_step kw.one (fun b => heap_one p3.1 p3.2 b) p3
  let p5 ← heap_opt_step kw.projection_model
    (fun m => heap_project p4.1 p4.2 (some m)) p4
  let p6 := match kw.session with
    | some s => heap_set_session p5.1 p5.2 (some s)
    | none => p5
  pure p6

/-- `find_many = find` on the heap. -/
def heap_find_many : Heap → Nat → List Nat → FindKwargs → Except PyErr (Heap × Nat) :=
  heap_find

/-- `find_one` on the heap. -/
def heap_find_one (h : Heap) (r : Nat) (args : List Nat) (kw : FindKwargs) :
    Except PyErr (Heap × Nat) := do
  let (h1, r1) ← heap_find h r args kw
  heap_one h1 r1 true

/-- `h'` extends `h`: every object that existed in `h` is unchanged in
`h'` (new objects may have been allocated after them). -/
def heap_extends (h h' : Heap) : Prop :=
  h.length ≤ h'.length ∧ ∀ i, i < h.length → h'[i]? = h[i]?

/-! ## Unfolding lemmas for the pure builder methods -/

@[simp] theorem bind_ok_py {α β : Type} (a : α) (f : α → Except PyErr β) :
    (Except.ok a : Except PyErr α) >>= f = f a :=
  rfl

@[simp] theorem bind_error_py {α β : Type} (e : PyErr) (f : α → Except PyErr β) :
    (Except.error e : Except PyErr α) >>= f = (Except.error e : Except PyErr β) :=
  rfl

@[simp] theorem pure_ok_py {α : Type} (a : α) :
    (pure a : Except PyErr α) = Except.ok a :=
  rfl

theorem copy_update_nil (q : FindQuery) : _copy_update q [] = .ok q :=
  rfl

theorem copy_update_cons (q : FindQuery) (u : FieldUpdate) (us : List FieldUpdate) :
    _copy_update q (u :: us) =
      (do
        let q' ← setattr_validated q u
        _copy_update q' us) :=
  rfl

@[simp] theorem limit_eq (q : FindQuery) (n : Nat) :
    q.limit n = .ok { q with limit_number := n } :=
  rfl

@[simp] theorem skip_eq (q : FindQuery) (n : Nat) :
    q.skip n = .ok { q with skip_number := n } :=
  rfl

@[simp] theorem project_eq (q : FindQuery) (m : Option Nat) :
    q.project m =
      .ok { q with projection_model := default_projection_model m q.document_model } :=
  rfl

@[simp] theorem one_eq (q : FindQuery) (b : Bool) :
    q.one b = .ok { q with is_single := b, limit_number := 1 } :=
  rfl

@[simp] theorem set_session_eq (q : FindQuery) (s : Option Nat) :
    q.set_session s = { q with session := s } :=
  rfl

/-- `validate_items_list` distributes over list append. -/
theorem validate_items_list_append (xs ys : List SortArg) :
    validate_items_list (xs ++ ys) =
      (do
        let a ← validate_items_list xs
        let b ← validate_items_list ys
        pure (a ++ b)) := by
  induction xs with
  | nil =>
      simp only [List.nil_append, validate_items_list]
      cases h : validate_items_list ys <;> simp [h]
  | cons x xs ih =>
      simp only [List.cons_append, validate_items_list, List.append_eq, ih]
      cases validate_sort_items x with
      | error e => simp
      | ok v =>
          simp only [bind_ok_py]
          cases coerce_sort_tuple v with
          | error e => simp
          | ok p =>
              simp only [bind_ok_py]
              cases validate_items_list xs with
              | error e => simp
              | ok a =>
                  cases validate_items_list ys with
                  | error e => simp
                  | ok b => simp

/-- `validate_sort_field` distributes over list append. -/
theorem validate_sort_field_append (xs ys : List SortArg) :
    validate_sort_field (xs ++ ys) =
      (do
        let a ← validate_sort_field xs
        let b ← validate_sort_field ys
        pure (a ++ b)) := by
  simp only [validate_sort_field, validate_sort_no_none, List.filter_append,
    validate_items_list_append]

/-- Already-normalized pairs re-validate to themselves. -/
theorem validate_sort_field_pairs (ps : List (String × SortDirection)) :
    validate_sort_field (ps.map fun p => SortArg.pyPair p.1 p.2) = .ok ps := by
  induction ps with
  | nil => rfl
  | cons p ps ih =>
      simp only [validate_sort_field, validate_sort_no_none] at ih ⊢
      simp [is_not_none, List.filter_cons, validate_items_list,
        validate_sort_items, coerce_sort_tuple, ih]

/-- Shape of a successful `sort`: only `sort_expressions` changes, and
the validated forms of the (flattened) arguments are prepended to the
existing sort expressions. -/
theorem sort_shape :
    ∀ (args : List SortArg) (q q' : FindQuery), q.sort args = .ok q' →
      ∃ ns, q' = { q with sort_expressions := ns ++ q.sort_expressions } := by
  intro args
  induction args using FindQuery.sort.induct default_query with
  | case1 => intro q q' he; simp [FindQuery.sort] at he
  | case2 l ih =>
      intro q q' he
      rw [FindQuery.sort] at he
      exact ih q q' he
  | case3 x h1 h2 =>
      intro q q' he
      rw [FindQuery.sort] at he
      · cases hv : validate_sort_field x with
        | error e =>
            simp [_copy_update, List.foldlM, setattr_validated,
              validate_sort_field_append, validate_sort_field_pairs, hv] at he
        | ok ns =>
            refine ⟨ns, ?_⟩
            simp [_copy_update, List.foldlM, setattr_validated,
              validate_sort_field_append, validate_sort_field_pairs, hv] at he
            exact he.symm
      · exact h1
      · exact h2

/-- Fields other than `sort_expressions` are untouched by a successful
`sort`. -/
theorem sort_preserves {q q' : FindQuery} {args : List SortArg}
    (he : q.sort args = .ok q') :
    q'.find_expressions = q.find_expressions ∧
      q'.document_model = q.document_model ∧
      q'.projection_model = q.projection_model ∧
      q'.skip_number = q.skip_number ∧
      q'.limit_number = q.limit_number ∧
      q'.is_single = q.is_single ∧
      q'.session = q.session := by
  obtain ⟨ns, rfl⟩ := sort_shape args q q' he
  exact ⟨rfl, rfl, rfl, rfl, rfl, rfl, rfl⟩

/-- The (total) part of `find` before the optional `sort` step: append
the predicates, then apply `skip` and `limit` when given. -/
def find_pre (q : FindQuery) (args : List Nat) (kw : FindKwargs) : FindQuery :=
  let q0 := { q with find_expressions := q.find_expressions ++ args }
  let q1 := match kw.skip with
    | some n => { q0 with skip_number := n }
    | none => q0
  match kw.limit with
  | some n => { q1 with limit_number := n }
  | none => q1

/-- The optional `sort` step of `find`. -/
def find_sort_step (o : Option SortArg) (q : FindQuery) : Except PyErr FindQuery :=
  match o with
  | some s => q.sort [s]
  | none => pure q

/-- The (total) part of `find` after the `sort` step: apply `one`,
`project` and `set_session` when given. -/
def find_post (kw : FindKwargs) (q3 : FindQuery) : FindQuery :=
  let q4 := match kw.one with
    | some b => { q3 with is_single := b, limit_number := 1 }
    | none => q3
  let q5 := match kw.projection_model with
    | some m => { q4 with projection_model := m }
    | none => q4
  match kw.session with
  | some s => { q5 with session := some s }
  | none => q5

/-- `find` decomposes into the total prefix, the fallible `sort` step,
and the total suffix. -/
theorem find_eq (q : FindQuery) (args : List Nat) (kw : FindKwargs) :
    q.find args kw =
      (do
        let q3 ← find_sort_step kw.sort (find_pre q args kw)
        pure (find_post kw q3)) := by
  obtain ⟨ks, kl, ksort, kone, kpm, ksess⟩ := kw
  cases ks <;> cases kl <;> cases ksort <;> cases kone <;> cases kpm <;>
    cases ksess <;>
    simp only [FindQuery.find, find_pre, find_sort_step, find_post,
      _copy_update, List.foldlM, setattr_validated, default_projection_model,
      Option.getD_some, bind_ok_py, pure_ok_py, limit_eq, skip_eq, project_eq,
      one_eq, set_session_eq, FindQuery.set_session]

/-- Field bookkeeping for `find_pre`. -/
theorem find_pre_fields (q : FindQuery) (args : List Nat) (kw : FindKwargs) :
    (find_pre q args kw).find_expressions = q.find_expressions ++ args ∧
      (find_pre q args kw).document_model = q.document_model ∧
      (find_pre q args kw).sort_expressions = q.sort_expressions := by
  obtain ⟨ks, kl, ksort, kone, kpm, ksess⟩ := kw
  cases ks <;> cases kl <;> simp [find_pre]

/-- Field bookkeeping for `find_post`. -/
theorem find_post_fields (kw : FindKwargs) (q3 : FindQuery) :
    (find_post kw q3).find_expressions = q3.find_expressions ∧
      (∀ b, kw.one = some b →
        (find_post kw q3).is_single = b ∧ (find_post kw q3).limit_number = 1) := by
  obtain ⟨ks, kl, ksort, kone, kpm, ksess⟩ := kw
  cases kone <;> cases kpm <;> cases ksess <;> simp [find_post]

/-- Shape of a successful `find`: the new predicates end up appended
after the existing ones, and a `one=` keyword argument forces
`is_single` to the flag and `limit_number` to 1. -/
theorem find_shape {q : FindQuery} {args : List Nat} {kw : FindKwargs}
    {q' : FindQuery} (he : q.find args kw = .ok q') :
    q'.find_expressions = q.find_expressions ++ args ∧
      (∀ b, kw.one = some b → q'.is_single = b ∧ q'.limit_number = 1) := by
  rw [find_eq] at he
  cases hs : find_sort_step kw.sort (find_pre q args kw) with
  | error e => rw [hs] at he; cases he
  | ok q3 =>
      rw [hs] at he
      simp only [bind_ok_py, pure_ok_py, Except.ok.injEq] at he
      subst he
      have h3 : q3.find_expressions = (find_pre q args kw).find_expressions := by
        cases hsort : kw.sort with
        | none =>
            rw [hsort] at hs
            simp only [find_sort_step, pure_ok_py, Except.ok.injEq] at hs
            rw [hs]
        | some s =>
            rw [hsort] at hs
            simp only [find_sort_step] at hs
            exact (sort_preserves hs).1
      refine ⟨?_, (find_post_fields kw q3).2⟩
      rw [(find_post_fields kw q3).1, h3, (find_pre_fields q args kw).1]

/-! ## Heap lemmas -/

theorem heap_extends_refl (h : Heap) : heap_extends h h :=
  ⟨Nat.le_refl _, fun _ _ => rfl⟩

theorem heap_extends_trans {h1 h2 h3 : Heap}
    (a : heap_extends h1 h2) (b : heap_extends h2 h3) : heap_extends h1 h3 :=
  ⟨Nat.le_trans a.1 b.1,
   fun i hi => (b.2 i (Nat.lt_of_lt_of_le hi a.1)).trans (a.2 i hi)⟩

/-- In-place `setattr` touches only the cell it is aimed at. -/
theorem heap_setattr_ok {h : Heap} {r : Nat} {u : FieldUpdate} {h' : Heap}
    (he : heap_setattr h r u = .ok h') :
    h'.length = h.length ∧ ∀ i, i ≠ r → h'[i]? = h[i]? := by
  unfold heap_setattr at he
  split at he
  · injection he with he
    subst he
    exact ⟨List.length_set _ _ _, fun i hi => List.getElem?_set_ne (Ne.symm hi)⟩
  · cases he

/-- A fold of `setattr`s aimed at one cell touches only that cell. -/
theorem heap_setattr_fold_ok :
    ∀ (us : List FieldUpdate) (h : Heap) (r : Nat) (h' : Heap),
      us.foldlM (fun hh u => heap_setattr hh r u) h = .ok h' →
      h'.length = h.length ∧ ∀ i, i ≠ r → h'[i]? = h[i]? := by
  intro us
  induction us with
  | nil =>
      intro h r h' he
      injection he with he
      subst he
      exact ⟨rfl, fun _ _ => rfl⟩
  | cons u us ih =>
      intro h r h' he
      rw [List.foldlM_cons] at he
      cases hs : heap_setattr h r u with
      | error e => rw [hs] at he; cases he
      | ok h1 =>
          rw [hs] at he
          simp only [bind_ok_py] at he
          obtain ⟨len1, idx1⟩ := heap_setattr_ok hs
          obtain ⟨len2, idx2⟩ := ih h1 r h' he
          exact ⟨len2.trans len1, fun i hi => (idx2 i hi).trans (idx1 i hi)⟩

/-- `_copy_update` on the heap allocates one fresh cell and leaves every
pre-existing cell untouched. -/
theorem heap_copy_update_ok {h : Heap} {r : Nat} {us : List FieldUpdate}
    {h' : Heap} {r' : Nat} (he : heap_copy_update h r us = .ok (h', r')) :
    r' = h.length ∧ h'.length = h.length + 1 ∧
      ∀ i, i < h.length → h'[i]? = h[i]? := by
  unfold heap_copy_update heap_copy at he
  simp only [bind_ok_py, pure_ok_py] at he
  cases hf : us.foldlM (fun hh u => heap_setattr hh h.length u)
      (h ++ [heap_get h r]) with
  | error e => rw [hf] at he; cases he
  | ok h2 =>
      rw [hf] at he
      simp only [bind_ok_py, pure_ok_py, Except.ok.injEq, Prod.mk.injEq] at he
      obtain ⟨hh, hr⟩ := he
      subst hh
      obtain ⟨hlen, hidx⟩ := heap_setattr_fold_ok us _ _ _ hf
      refine ⟨hr.symm, ?_, ?_⟩
      · rw [hlen, List.length_append, List.length_singleton]
      · intro i hi
        rw [hidx i (Nat.ne_of_lt hi), List.getElem?_append_left hi]

theorem heap_copy_update_extends {h : Heap} {r : Nat} {us : List FieldUpdate}
    {h' : Heap} {r' : Nat} (he : heap_copy_update h r us = .ok (h', r')) :
    heap_extends h h' := by
  obtain ⟨_, hlen, hidx⟩ := heap_copy_update_ok he
  exact ⟨by omega, hidx⟩

theorem heap_set_session_extends (h : Heap) (r : Nat) (s : Option Nat) :
    heap_extends h (heap_set_session h r s).1 :=
  ⟨by simp [heap_set_session], fun i hi => List.getElem?_append_left hi⟩

/-- `sort` on the heap leaves every pre-existing cell untouched. -/
theorem heap_sort_extends :
    ∀ (args : List SortArg) (h : Heap) (r : Nat) (h' : Heap) (r' : Nat),
      heap_sort h r args = .ok (h', r') → heap_extends h h' := by
  intro args
  induction args using heap_sort.induct ([] : Heap) 0 with
  | case1 => intro h r h' r' he; simp [heap_sort] at he
  | case2 l ih =>
      intro h r h' r' he
      rw [heap_sort] at he
      exact ih h r h' r' he
  | case3 x h1 h2 =>
      intro h r h' r' he
      rw [heap_sort] at he
      · exact heap_copy_update_extends he
      · exact h1
      · exact h2

/-- Peel one optional chained builder step on the heap. -/
theorem heap_opt_step_extends {α : Type} (o : Option α)
    (f : α → Except PyErr (Heap × Nat)) (p0 : Heap × Nat) {p1 : Heap × Nat}
    (he : heap_opt_step o f p0 = .ok p1)
    (hf : ∀ a, f a = .ok p1 → heap_extends p0.1 p1.1) :
    heap_extends p0.1 p1.1 := by
  cases o with
  | none =>
      simp only [heap_opt_step, pure_ok_py, Except.ok.injEq] at he
      rw [← he]
      exact heap_extends_refl p0.1
  | some a => exact hf a he

/-- `find` on the heap leaves every pre-existing cell untouched. -/
theorem heap_find_extends {h : Heap} {r : Nat} {args : List Nat}
    {kw : FindKwargs} {h' : Heap} {r' : Nat}
    (he : heap_find h r args kw = .ok (h', r')) : heap_extends h h' := by
  unfold heap_find at he
  cases h0s : heap_copy_update h r
      [.find_expressions ((heap_get h r).find_expressions ++ args)] with
  | error e => rw [h0s] at he; cases he
  | ok p0 =>
      rw [h0s] at he
      simp only [bind_ok_py] at he
      have e0 : heap_extends h p0.1 := by
        obtain ⟨h0, r0⟩ := p0
        exact heap_copy_update_extends h0s
      cases h1s : heap_opt_step kw.skip (fun n => heap_skip p0.1 p0.2 n) p0 with
      | error e => rw [h1s] at he; cases he
      | ok p1 =>
          rw [h1s] at he
          simp only [bind_ok_py] at he
          have e1 : heap_extends p0.1 p1.1 :=
            heap_opt_step_extends _ _ _ h1s fun n hn => by
              obtain ⟨a, b⟩ := p1
              exact heap_copy_update_extends hn
          cases h2s : heap_opt_step kw.limit
              (fun n => heap_limit p1.1 p1.2 n) p1 with
          | error e => rw [h2s] at he; cases he
          | ok p2 =>
              rw [h2s] at he
              simp only [bind_ok_py] at he
              have e2 : heap_extends p1.1 p2.1 :=
                heap_opt_step_extends _ _ _ h2s fun n hn => by
                  obtain ⟨a, b⟩ := p2
                  exact heap_copy_update_extends hn
              cases h3s : heap_opt_step kw.sort
                  (fun s => heap_sort p2.1 p2.2 [s]) p2 with
              | error e => rw [h3s] at he; cases he
              | ok p3 =>
                  rw [h3s] at he
                  simp only [bind_ok_py] at he
                  have e3 : heap_extends p2.1 p3.1 :=
                    heap_opt_step_extends _ _ _ h3s fun s hs => by
                      obtain ⟨a, b⟩ := p3
                      exact heap_sort_extends [s] _ _ _ _ hs
                  cases h4s : heap_opt_step kw.one
                      (fun b => heap_one p3.1 p3.2 b) p3 with
                  | error e => rw [h4s] at he; cases he
                  | ok p4 =>
                      rw [h4s] at he
                      simp only [bind_ok_py] at he
                      have e4 : heap_extends p3.1 p4.1 :=
                        heap_opt_step_extends _ _ _ h4s fun b hb => by
                          obtain ⟨a, c⟩ := p4
                          exact heap_copy_update_extends hb
                      cases h5s : heap_opt_step kw.projection_model
                          (fun m => heap_project p4.1 p4.2 (some m)) p4 with
                      | error e => rw [h5s] at he; cases he
                      | ok p5 =>
                          rw [h5s] at he
                          simp only [bind_ok_py, pure_ok_py,
                            Except.ok.injEq] at he
                          have e5 : heap_extends p4.1 p5.1 :=
                            heap_opt_step_extends _ _ _ h5s fun m hm => by
                              obtain ⟨a, b⟩ := p5
                              exact heap_copy_update_extends hm
                          have e6 : heap_extends p5.1 h' := by
                            cases ksess : kw.session with
                            | none =>
                                rw [ksess] at he
                                have : p5.1 = h' := congrArg Prod.fst he
                                rw [← this]
                                exact heap_extends_refl p5.1
                            | some s =>
                                rw [ksess] at he
                                have hfst :
                                    (heap_set_session p5.1 p5.2 (some s)).1 = h' :=
                                  congrArg Prod.fst he
                                rw [← hfst]
                                exact heap_set_session_extends p5.1 p5.2 (some s)
                          exact heap_extends_trans e0 (heap_extends_trans e1
                            (heap_extends_trans e2 (heap_extends_trans e3
                              (heap_extends_trans e4
                                (heap_extends_trans e5 e6)))))

/-- `find_one` on the heap leaves every pre-existing cell untouched. -/
theorem heap_find_one_extends {h : Heap} {r : Nat} {args : List Nat}
    {kw : FindKwargs} {h' : Heap} {r' : Nat}
    (he : heap_find_one h r args kw = .ok (h', r')) : heap_extends h h' := by
  unfold heap_find_one at he
  cases hf : heap_find h r args kw with
  | error e => rw [hf] at he; cases he
  | ok p =>
      obtain ⟨h1, r1⟩ := p
      rw [hf] at he
      simp only [bind_ok_py] at he
      exact heap_extends_trans (heap_find_extends hf)
        (heap_copy_update_extends he)

/-- `sort` with a single bare (un-prefixed) string argument. -/
theorem sort_str_bare (q : FindQuery) (s : String)
    (hp : startswith1 s '+' = false) (hm : startswith1 s '-' = false) :
    q.sort [.pyStr s] =
      .ok { q with
        sort_expressions := (s, .ascending) :: q.sort_expressions } := by
  have hv : validate_sort_field [SortArg.pyStr s] =
      .ok [(s, SortDirection.ascending)] := by
    simp [validate_sort_field, validate_sort_no_none, is_not_none,
      validate_items_list, validate_sort_items, coerce_sort_tuple, hp, hm]
  have hv2 : validate_sort_field
      (SortArg.pyStr s :: q.sort_expressions.map fun p => SortArg.pyPair p.1 p.2) =
      .ok ((s, SortDirection.ascending) :: q.sort_expressions) := by
    have happ := validate_sort_field_append [SortArg.pyStr s]
      (q.sort_expressions.map fun p => SortArg.pyPair p.1 p.2)
    simp only [List.singleton_append] at happ
    rw [happ, hv, validate_sort_field_pairs]
    rfl
  rw [FindQuery.sort]
  · simp only [_copy_update, List.foldlM, setattr_validated,
      List.singleton_append, hv2, bind_ok_py, pure_ok_py]
  · simp
  · intro l; simp

/-- A successful item-by-item validation relates input items and output
pairs pointwise, in order: each output pair is exactly the
normalization of the corresponding input item. -/
theorem validate_items_list_forall2 :
    ∀ (l : List SortArg) (res : List (String × SortDirection)),
      validate_items_list l = .ok res →
      List.Forall₂ (fun x p => validate_sort_items x = .ok (.pyPair p.1 p.2))
        l res := by
  intro l
  induction l with
  | nil =>
      intro res he
      injection he with he
      subst he
      exact List.Forall₂.nil
  | cons x xs ih =>
      intro res he
      simp only [validate_items_list] at he
      cases hv : validate_sort_items x with
      | error e => rw [hv] at he; cases he
      | ok v =>
          rw [hv] at he
          simp only [bind_ok_py] at he
          cases hc : coerce_sort_tuple v with
          | error e => rw [hc] at he; cases he
          | ok p =>
              rw [hc] at he
              simp only [bind_ok_py] at he
              cases hr : validate_items_list xs with
              | error e => rw [hr] at he; cases he
              | ok ps =>
                  rw [hr] at he
                  simp only [bind_ok_py, Except.ok.injEq] at he
                  subst he
                  have hv' : v = .pyPair p.1 p.2 := by
                    cases v with
                    | pyPair f d =>
                        simp only [coerce_sort_tuple, Except.ok.injEq] at hc
                        rw [← hc]
                    | pyNone => simp [coerce_sort_tuple] at hc
                    | pyStr s => simp [coerce_sort_tuple] at hc
                    | pyList l => simp [coerce_sort_tuple] at hc
                    | pyOther t => simp [coerce_sort_tuple] at hc
                  exact List.Forall₂.cons (hv' ▸ hv) (ih ps hr)

/-! ## The claims -/

/-- **C1.** Every builder transform (`limit`, `skip`, `project`, `one`,
`sort`, `find`/`find_many`, `find_one`, `set_session`) is pure: run over
the object heap, a successful transform returns a new query object while
every object that existed before the call — in particular the receiver
`Q` — is unchanged (`heap_extends`), so `Q` remains usable afterwards
with its original behavior. -/
theorem C1_builder_transforms_pure :
    (∀ (h : Heap) (r n : Nat) (h' : Heap) (r' : Nat),
      heap_limit h r n = .ok (h', r') → heap_extends h h') ∧
    (∀ (h : Heap) (r n : Nat) (h' : Heap) (r' : Nat),
      heap_skip h r n = .ok (h', r') → heap_extends h h') ∧
    (∀ (h : Heap) (r : Nat) (m : Option Nat) (h' : Heap) (r' : Nat),
      heap_project h r m = .ok (h', r') → heap_extends h h') ∧
    (∀ (h : Heap) (r : Nat) (b : Bool) (h' : Heap) (r' : Nat),
      heap_one h r b = .ok (h', r') → heap_extends h h') ∧
    (∀ (h : Heap) (r : Nat) (args : List SortArg) (h' : Heap) (r' : Nat),
      heap_sort h r args = .ok (h', r') → heap_extends h h') ∧
    (∀ (h : Heap) (r : Nat) (args : List Nat) (kw : FindKwargs)
        (h' : Heap) (r' : Nat),
      heap_find h r args kw = .ok (h', r') → heap_extends h h') ∧
    (∀ (h : Heap) (r : Nat) (args : List Nat) (kw : FindKwargs)
        (h' : Heap) (r' : Nat),
      heap_find_many h r args kw = .ok (h', r') → heap_extends h h') ∧
    (∀ (h : Heap) (r : Nat) (args : List Nat) (kw : FindKwargs)
        (h' : Heap) (r' : Nat),
      heap_find_one h r args kw = .ok (h', r') → heap_extends h h') ∧
    (∀ (h : Heap) (r : Nat) (s : Option Nat),
      heap_extends h (heap_set_session h r s).1) :=
  ⟨fun _ _ _ _ _ he => heap_copy_update_extends he,
   fun _ _ _ _ _ he => heap_copy_update_extends he,
   fun _ _ _ _ _ he => heap_copy_update_extends he,
   fun _ _ _ _ _ he => heap_copy_update_extends he,
   fun h r args h' r' he => heap_sort_extends args h r h' r' he,
   fun _ _ _ _ _ _ he => heap_find_extends he,
   fun _ _ _ _ _ _ he => heap_find_extends he,
   fun _ _ _ _ _ _ he => heap_find_one_extends he,
   heap_set_session_extends⟩

/-- Witness for C1: `limit 5` on a one-object heap leaves the original
object untouched. -/
theorem C1_witness :
    heap_limit [default_query] 0 5 =
      .ok ([default_query, { default_query with limit_number := 5 }], 1) ∧
    heap_extends [default_query]
      [default_query, { default_query with limit_number := 5 }] :=
  ⟨rfl, C1_builder_transforms_pure.1 [default_query] 0 5
    [default_query, { default_query with limit_number := 5 }] 1 rfl⟩

/-- **C2.** `one(Q, b)` sets `is_single = b` and `limit_number = 1`; at
execution-parameter assembly the `limit` parameter equals 1 whenever
`is_single` is true and `limit_number` otherwise; hence `.limit(n)`
followed by `.one()` yields an effective limit of 1. -/
theorem C2_one_forces_limit_one :
    (∀ (q : FindQuery) (b : Bool),
      q.one b = .ok { q with is_single := b, limit_number := 1 }) ∧
    (∀ q : FindQuery, q.is_single = true →
      q._find_query_params.limit = 1) ∧
    (∀ q : FindQuery, q.is_single = false →
      q._find_query_params.limit = q.limit_number) ∧
    (∀ (q : FindQuery) (n : Nat) (q1 q2 : FindQuery),
      q.limit n = .ok q1 → q1.one true = .ok q2 →
      q2._find_query_params.limit = 1) := by
  refine ⟨one_eq, ?_, ?_, ?_⟩
  · intro q hq
    simp [FindQuery._find_query_params, hq]
  · intro q hq
    simp [FindQuery._find_query_params, hq]
  · intro q n q1 q2 h1 h2
    rw [limit_eq] at h1
    injection h1 with h1
    rw [one_eq] at h2
    injection h2 with h2
    subst h1
    subst h2
    rfl

/-- Witness for C2: `limit 50` then `one()` gives effective limit 1. -/
theorem C2_witness :
    ({ default_query with limit_number := 50 } : FindQuery).one true =
      .ok { default_query with limit_number := 1, is_single := true } ∧
    ({ default_query with limit_number := 1, is_single := true } :
      FindQuery)._find_query_params.limit = 1 :=
  ⟨rfl, C2_one_forces_limit_one.2.2.2 default_query 50
    { default_query with limit_number := 50 }
    { default_query with limit_number := 1, is_single := true } rfl rfl⟩

/-- **C3.** `sort` prepends the new (normalized) specs before the
existing `sort_expressions`; in particular
`Q.sort("a").sort("b")` has `sort_expressions`
`[(b, ascending), (a, ascending)]`. -/
theorem C3_sort_prepends :
    (∀ (args : List SortArg) (q q' : FindQuery), q.sort args = .ok q' →
      ∃ new_specs,
        q'.sort_expressions = new_specs ++ q.sort_expressions) ∧
    (∀ q : FindQuery, q.sort [.pyStr "a"] =
      .ok { q with
        sort_expressions := ("a", .ascending) :: q.sort_expressions }) ∧
    (∀ q : FindQuery, q.sort_expressions = [] →
      (do
        let q1 ← q.sort [.pyStr "a"]
        q1.sort [.pyStr "b"]) =
      .ok { q with
        sort_expressions := [("b", .ascending), ("a", .ascending)] }) := by
  refine ⟨?_, ?_, ?_⟩
  · intro args q q' he
    obtain ⟨ns, rfl⟩ := sort_shape args q q' he
    exact ⟨ns, rfl⟩
  · intro q
    exact sort_str_bare q "a" rfl rfl
  · intro q hq
    rw [sort_str_bare q "a" rfl rfl]
    simp only [bind_ok_py]
    rw [sort_str_bare _ "b" rfl rfl]
    simp [hq]

/-- Witness for C3: the `sort("a")` / `sort("b")` chain from the empty
builder. -/
theorem C3_witness :
    default_query.sort_expressions = ([] : List (String × SortDirection)) ∧
    (do
      let q1 ← default_query.sort [.pyStr "a"]
      q1.sort [.pyStr "b"]) =
      .ok { default_query with
        sort_expressions := [("b", .ascending), ("a", .ascending)] } :=
  ⟨rfl, C3_sort_prepends.2.2 default_query rfl⟩

/-- **C4.** `find` appends its predicate arguments after the existing
`find_expressions`; `get_filter_query` returns the `And` of all
`find_expressions` in insertion order when the list is non-empty and the
empty match-all mapping when it is empty; hence
`Q.find(P1).find(P2)` filters by `And(P1, P2)` with `P1` first. -/
theorem C4_filter_accumulation :
    (∀ (q : FindQuery) (args : List Nat) (kw : FindKwargs) (q' : FindQuery),
      q.find args kw = .ok q' →
      q'.find_expressions = q.find_expressions ++ args) ∧
    (∀ q : FindQuery, q.find_expressions ≠ [] →
      q.get_filter_query = .andF q.find_expressions) ∧
    (∀ q : FindQuery, q.find_expressions = [] →
      q.get_filter_query = .emptyF) ∧
    (∀ (q : FindQuery) (p1 p2 : Nat) (q1 q2 : FindQuery),
      q.find_expressions = [] →
      q.find [p1] noKwargs = .ok q1 → q1.find [p2] noKwargs = .ok q2 →
      q2.get_filter_query = .andF [p1, p2]) := by
  refine ⟨?_, ?_, ?_, ?_⟩
  · intro q args kw q' he
    exact (find_shape he).1
  · intro q hne
    cases hfe : q.find_expressions with
    | nil => exact absurd hfe hne
    | cons a as => simp [FindQuery.get_filter_query, hfe]
  · intro q hfe
    simp [FindQuery.get_filter_query, hfe]
  · intro q p1 p2 q1 q2 h0 h1 h2
    have e1 := (find_shape h1).1
    have e2 := (find_shape h2).1
    rw [e1, h0] at e2
    simp only [List.nil_append, List.cons_append] at e2
    simp [FindQuery.get_filter_query, e2]

/-- Witness for C4: two chained single-predicate `find` calls. -/
theorem C4_witness :
    default_query.find [1] noKwargs =
      .ok { default_query with find_expressions := [1] } ∧
    ({ default_query with find_expressions := [1] } : FindQuery).find [2]
        noKwargs =
      .ok { default_query with find_expressions := [1, 2] } ∧
    ({ default_query with find_expressions := [1, 2] } :
      FindQuery).get_filter_query = .andF [1, 2] :=
  ⟨rfl, rfl, C4_filter_accumulation.2.2.2 default_query 1 2
    { default_query with find_expressions := [1] }
    { default_query with find_expressions := [1, 2] } rfl rfl rfl⟩

/-- **C5.** `count` issues its call with only the filter derived from
`find_expressions`: any two states with the same `find_expressions`
count alike, so `skip(10).limit(5)` does not change the count. -/
theorem C5_count_ignores_pagination :
    (∀ (q : FindQuery) (col : MotorCollection),
      q.count col =
        (col.count_documents_result q.get_filter_query,
         [.count_documents_call q.get_filter_query])) ∧
    (∀ (q q' : FindQuery) (col : MotorCollection),
      q'.find_expressions = q.find_expressions →
      q'.count col = q.count col) ∧
    (∀ (q : FindQuery) (col : MotorCollection) (q1 q2 : FindQuery),
      q.skip 10 = .ok q1 → q1.limit 5 = .ok q2 →
      q2.count col = q.count col) := by
  refine ⟨fun q col => rfl, ?_, ?_⟩
  · intro q q' col hfe
    unfold FindQuery.count FindQuery.get_filter_query
    rw [hfe]
  · intro q col q1 q2 h1 h2
    rw [skip_eq] at h1
    injection h1 with h1
    rw [limit_eq] at h2
    injection h2 with h2
    subst h1
    subst h2
    rfl

/-- Witness for C5: `skip(10).limit(5)` counts like the bare query. -/
theorem C5_witness :
    default_query.skip 10 =
      .ok { default_query with skip_number := 10 } ∧
    ({ default_query with skip_number := 10 } : FindQuery).limit 5 =
      .ok { default_query with skip_number := 10, limit_number := 5 } ∧
    ({ default_query with skip_number := 10, limit_number := 5 } :
        FindQuery).count ⟨fun _ => none, fun _ => [], fun _ => 42⟩ =
      default_query.count ⟨fun _ => none, fun _ => [], fun _ => 42⟩ :=
  ⟨rfl, rfl, C5_count_ignores_pagination.2.2 default_query
    ⟨fun _ => none, fun _ => [], fun _ => 42⟩
    { default_query with skip_number := 10 }
    { default_query with skip_number := 10, limit_number := 5 } rfl rfl⟩

/-- **C6.** Awaiting a query with `is_single = true` issues exactly one
`find_one` call with the assembled parameters; a missing record yields
`None` (not an error); a found record is parsed into
`projection_model`. -/
theorem C6_single_await_semantics :
    ∀ (q : FindQuery) (col : MotorCollection), q.is_single = true →
      (q.await_query col).2 = [.find_one_call q._find_query_params] ∧
      (col.find_one_result q._find_query_params = none →
        (q.await_query col).1 = .singleR none) ∧
      (∀ d, col.find_one_result q._find_query_params = some d →
        (q.await_query col).1 =
          .singleR (some (parse_obj q.projection_model d))) := by
  intro q col hq
  refine ⟨?_, ?_, ?_⟩
  · cases hfo : col.find_one_result q._find_query_params <;>
      simp [FindQuery.await_query, hq, hfo]
  · intro hnone
    simp [FindQuery.await_query, hq, hnone]
  · intro d hd
    simp [FindQuery.await_query, hq, hd]

/-- Witness for C6: a single-mode query against a collection that
returns record 7. -/
theorem C6_witness :
    (({ default_query with is_single := true } : FindQuery).await_query
        ⟨fun _ => some 7, fun _ => [], fun _ => 0⟩).1 =
      .singleR (some (0, 7)) :=
  (C6_single_await_semantics { default_query with is_single := true }
    ⟨fun _ => some 7, fun _ => [], fun _ => 0⟩ rfl).2.2 7 rfl

/-- **C7.** Per-item sort normalization: `"+f"` and bare `"f"` become
`(f, ascending)`, `"-f"` becomes `(f, descending)`, a tuple passes
through unchanged, and an item of any other (non-`None`) type fails
with the invalid-sort-specification error
(`TypeError("Wrong sort type")` in the source). -/
theorem C7_sort_item_normalization :
    (∀ cs : List Char,
      validate_sort_items (.pyStr (String.mk ('+' :: cs))) =
        .ok (.pyPair (String.mk cs) .ascending)) ∧
    (∀ cs : List Char,
      validate_sort_items (.pyStr (String.mk ('-' :: cs))) =
        .ok (.pyPair (String.mk cs) .descending)) ∧
    (∀ s : String, startswith1 s '+' = false → startswith1 s '-' = false →
      validate_sort_items (.pyStr s) = .ok (.pyPair s .ascending)) ∧
    (∀ (f : String) (d : SortDirection),
      validate_sort_items (.pyPair f d) = .ok (.pyPair f d)) ∧
    (∀ l, validate_sort_items (.pyList l) =
      .error (.typeError "Wrong sort type")) ∧
    (∀ t, validate_sort_items (.pyOther t) =
      .error (.typeError "Wrong sort type")) := by
  refine ⟨fun cs => rfl, fun cs => rfl, ?_, fun f d => rfl, fun l => rfl,
    fun t => rfl⟩
  intro s hp hm
  simp [validate_sort_items, hp, hm]

/-- Witness for C7: the bare string `"x"` normalizes to ascending. -/
theorem C7_witness :
    startswith1 "x" '+' = false ∧ startswith1 "x" '-' = false ∧
    validate_sort_items (.pyStr "x") = .ok (.pyPair "x" .ascending) :=
  ⟨rfl, rfl, C7_sort_item_normalization.2.2.1 "x" rfl rfl⟩

/-- **C8.** `None` entries are dropped by the list-level pass that runs
before per-item normalization (pydantic v1 runs whole-field `pre`
validators before `each_item` ones), so normalization never receives a
`None` item, and a successfully validated `sort_expressions` consists of
exactly the normalized forms of the non-`None` entries, in order. -/
theorem C8_none_filtered_before_normalization :
    (∀ (val : List SortArg) (x : SortArg),
      x ∈ validate_sort_no_none val → x ≠ .pyNone) ∧
    (∀ xs ys : List SortArg,
      validate_sort_field (xs ++ SortArg.pyNone :: ys) =
        validate_sort_field (xs ++ ys)) ∧
    (∀ (val : List SortArg) (res : List (String × SortDirection)),
      validate_sort_field val = .ok res →
      List.Forall₂
        (fun x p => validate_sort_items x = .ok (.pyPair p.1 p.2))
        (val.filter is_not_none) res) := by
  refine ⟨?_, ?_, ?_⟩
  · intro val x hx
    have := (List.mem_filter.mp hx).2
    intro hnone
    rw [hnone] at this
    simp [is_not_none] at this
  · intro xs ys
    simp [validate_sort_field, validate_sort_no_none, List.filter_append,
      List.filter_cons, is_not_none]
  · intro val res he
    exact validate_items_list_forall2 _ _ he

/-- Witness for C8: a list with a `None` and a string entry. -/
theorem C8_witness :
    validate_sort_field [SortArg.pyNone, SortArg.pyStr "a"] =
      .ok [("a", SortDirection.ascending)] ∧
    List.Forall₂
      (fun x p => validate_sort_items x = .ok (.pyPair p.1 p.2))
      (List.filter is_not_none [SortArg.pyNone, SortArg.pyStr "a"])
      [("a", SortDirection.ascending)] :=
  ⟨rfl, C8_none_filtered_before_normalization.2.2
    [SortArg.pyNone, SortArg.pyStr "a"] [("a", SortDirection.ascending)] rfl⟩

/-- **C9.** `sort()` with zero arguments raises the empty-sort-call
error (`ValueError("'sort()' requires arguments.")` in the source)
synchronously; it never succeeds, and — the error being raised before
anything is copied or assigned (also on the heap model) — the receiver
is left unchanged. -/
theorem C9_empty_sort_call_fails :
    (∀ q : FindQuery, q.sort [] =
      .error (.valueError "'sort()' requires arguments.")) ∧
    (∀ (h : Heap) (r : Nat), heap_sort h r [] =
      .error (.valueError "'sort()' requires arguments.")) := by
  constructor
  · intro q
    rw [FindQuery.sort]
  · intro h r
    rw [heap_sort]

/-- **C10.** `one(Q, false)` also sets `limit_number = 1`, exactly like
`one(Q, true)` (and `find(one=False)` does the same through the chain):
disabling single mode still clamps the limit to 1, discarding any
previously set limit. -/
theorem C10_one_false_still_clamps_limit :
    (∀ q : FindQuery, q.one false =
      .ok { q with is_single := false, limit_number := 1 }) ∧
    (∀ (q : FindQuery) (args : List Nat) (kw : FindKwargs)
        (q' : FindQuery) (b : Bool),
      kw.one = some b → q.find args kw = .ok q' →
      q'.is_single = b ∧ q'.limit_number = 1) ∧
    (∀ q q1 q2 : FindQuery,
      q.limit 50 = .ok q1 → q1.one false = .ok q2 →
      q2.limit_number = 1 ∧ q2.is_single = false) := by
  refine ⟨fun q => one_eq q false, ?_, ?_⟩
  · intro q args kw q' b hb he
    exact (find_shape he).2 b hb
  · intro q q1 q2 h1 h2
    rw [limit_eq] at h1
    injection h1 with h1
    rw [one_eq] at h2
    injection h2 with h2
    subst h1
    subst h2
    exact ⟨rfl, rfl⟩

/-- Witness for C10: `limit(50)` then `one(False)` resets the limit. -/
theorem C10_witness :
    ({ default_query with limit_number := 50 } : FindQuery).one false =
      .ok { default_query with limit_number := 1 } ∧
    (({ default_query with limit_number := 1 } : FindQuery).limit_number = 1 ∧
     ({ default_query with limit_number := 1 } : FindQuery).is_single = false) :=
  ⟨rfl, C10_one_false_still_clamps_limit.2.2 default_query
    { default_query with limit_number := 50 }
    { default_query with limit_number := 1 } rfl rfl⟩

end Beanie
